import Mathlib

/-!
Shallow embedding of the done-o-saur to-do application core (src/main.py).

The Flask/SQLAlchemy application keeps four tables (categories, to_dos,
subtasks, got_dones) and mutates them through route handlers.  We embed the
persistent store as four Lean lists together with autoincrement counters,
and each route handler as a pure function from a store (plus the validated
form inputs and the current date) to a result and a new store.  Dates are
modelled as natural numbers (days), ordered as dates are.

Conventions used throughout:
* db.session.get(Model, id) is List.find? on the id;
* db.session.delete of a row fetched by primary key is List.filter on the id
  (primary keys are unique in the database);
* a query with order_by is List.mergeSort (a stable sort) applied to the
  rows in insertion order, matching SQL ordering with rowid tie-breaking;
* a WTForms validation failure (DataRequired, date_check, SelectField
  choice validation) aborts the request before any write, leaving the
  store unchanged;
* an IntegrityError raised by a UNIQUE column constraint at commit time
  aborts the write, leaving the stored rows unchanged.
-/

namespace Donosaur

/-- A row of the categories table (class Categories): integer primary key and
a name column declared unique and non-nullable.  repr of a row is its name. -/
structure Category where
  id : Nat
  name : String
  deriving Repr, DecidableEq

/-- A row of the to_dos table (class ToDos): primary key, name, nullable
foreign key parent_id into categories, and a due_date column. -/
structure ToDo where
  id : Nat
  name : String
  parentId : Option Nat
  dueDate : Nat
  deriving Repr, DecidableEq

/-- A row of the subtasks table (class SubTasks): primary key, name, due_date,
foreign key to_do_id into to_dos, and a denormalized category label column. -/
structure Subtask where
  id : Nat
  name : String
  dueDate : Nat
  toDoId : Nat
  category : String
  deriving Repr, DecidableEq

/-- A row of the got_dones table (class GotDones): primary key, name, the
denormalized category label, and the completion date. -/
structure GotDone where
  id : Nat
  name : String
  category : String
  date : Nat
  deriving Repr, DecidableEq

/-- The persistent store: the four tables in insertion (rowid) order, plus
one autoincrement counter per table. -/
structure Store where
  categories : List Category
  toDos : List ToDo
  subtasks : List Subtask
  gotDones : List GotDone
  nextCatId : Nat
  nextToDoId : Nat
  nextSubId : Nat
  nextDoneId : Nat
  deriving Repr, DecidableEq

/-- Outcomes of a rejected operation, as classified by the spec: NotFound,
DuplicateName, InvalidDate, HasSubtasks, plus invalidInput for a WTForms
DataRequired / SelectField choice failure. -/
inductive OpError where
  | notFound
  | duplicateName
  | invalidDate
  | hasSubtasks
  | invalidInput
  deriving Repr, DecidableEq

/-- db.session.get(Categories, id). -/
def Store.getCategory (s : Store) (i : Nat) : Option Category :=
  s.categories.find? (fun c => c.id == i)

/-- db.session.get(ToDos, id). -/
def Store.getToDo (s : Store) (i : Nat) : Option ToDo :=
  s.toDos.find? (fun t => t.id == i)

/-- Categories.query.filter_by(name=...).first(). -/
def Store.categoryByName (s : Store) (n : String) : Option Category :=
  s.categories.find? (fun c => c.name == n)

/-- str applied to a nullable Categories row: Categories.repr returns the
name, and str(None) is the string None. -/
def catLabel : Option Category → String
  | some c => c.name
  | none => "None"

/-- The parent_category relationship of a ToDos row: the Categories row its
parent_id points at, if any. -/
def Store.parentCategoryOf (s : Store) (t : ToDo) : Option Category :=
  t.parentId.bind fun i => s.getCategory i

/-- The order_by key of the subtasks relationship: ascending due_date. -/
def subLE (a b : Subtask) : Bool := a.dueDate ≤ b.dueDate

/-- The order_by key of the dashboard query: ascending due_date. -/
def toDoLE (a b : ToDo) : Bool := a.dueDate ≤ b.dueDate

/-- The subtasks relationship of a ToDos row: all subtasks rows whose
to_do_id matches, ordered by due_date ascending (order_by=SubTasks.due_date
on the relationship declaration). -/
def Store.subtasksOf (s : Store) (i : Nat) : List Subtask :=
  (s.subtasks.filter (fun sub => sub.toDoId == i)).mergeSort subLE

/-- route dashboard: db.session.query(ToDos).order_by(asc(ToDos.due_date)). -/
def dashboard (s : Store) : List ToDo :=
  s.toDos.mergeSort toDoLE

/-- WTForms DataRequired on a string field: fails when the value is empty or
whitespace only, i.e. passes exactly when the value has a non-whitespace
character. -/
def dataRequired (v : String) : Bool := v.data.any (fun ch => !ch.isWhitespace)

/-- date_check (src/main.py lines 79 to 82): the custom validator raises a
ValidationError when the entered date is before the current date; it passes
otherwise. -/
def date_check (today d : Nat) : Bool := !(decide (d < today))

/-- route add_new_category: validates the CategoryForm (name DataRequired),
then inserts the new Categories row; a duplicate name violates the UNIQUE
constraint so that the commit raises IntegrityError, which the handler
catches, leaving the table unchanged. -/
def add_new_category (name : String) (s : Store) : Except OpError Category × Store :=
  if !(dataRequired name) then (Except.error OpError.invalidInput, s)
  else
    match s.categoryByName name with
    | some _ => (Except.error OpError.duplicateName, s)
    | none =>
      let c : Category := { id := s.nextCatId, name := name }
      (Except.ok c, { s with categories := s.categories ++ [c], nextCatId := s.nextCatId + 1 })

/-- route add_new_to_do: validates the ToDoForm (name DataRequired, category
a SelectField whose choices are the current category names, due_date
DataRequired plus date_check), resolves the selected category by name, and
inserts the new ToDos row. -/
def add_new_to_do (name : String) (categoryName : String) (dueDate today : Nat) (s : Store) :
    Except OpError ToDo × Store :=
  if !(dataRequired name) then (Except.error OpError.invalidInput, s)
  else if !(s.categories.any (fun c => c.name == categoryName)) then
    (Except.error OpError.invalidInput, s)
  else if !(date_check today dueDate) then (Except.error OpError.invalidDate, s)
  else
    let category := s.categoryByName categoryName
    let t : ToDo := { id := s.nextToDoId, name := name,
                      parentId := category.map (fun c => c.id), dueDate := dueDate }
    (Except.ok t, { s with toDos := s.toDos ++ [t], nextToDoId := s.nextToDoId + 1 })

/-- route add_new_subtask: validates the SubTaskForm (name DataRequired,
due_date DataRequired plus date_check against today), fetches the parent
ToDos row (absent parent cannot be dereferenced: NotFound), rejects when the
entered due_date is strictly after the parent due_date (flash and re-render,
nothing written), and otherwise inserts the subtasks row with the category
label copied from the parent category via str. -/
def add_new_subtask (toDoId : Nat) (name : String) (dueDate today : Nat) (s : Store) :
    Except OpError Subtask × Store :=
  if !(dataRequired name) then (Except.error OpError.invalidInput, s)
  else if !(date_check today dueDate) then (Except.error OpError.invalidDate, s)
  else
    match s.getToDo toDoId with
    | none => (Except.error OpError.notFound, s)
    | some t =>
      if decide (t.dueDate < dueDate) then (Except.error OpError.invalidDate, s)
      else
        let sub : Subtask := { id := s.nextSubId, name := name, dueDate := dueDate,
                               toDoId := t.id, category := catLabel (s.parentCategoryOf t) }
        (Except.ok sub, { s with subtasks := s.subtasks ++ [sub], nextSubId := s.nextSubId + 1 })

/-- route update_category: fetches the Categories row (absent row cannot be
dereferenced on submit: NotFound), validates the UpdateCategoryForm (name
DataRequired), and overwrites the name in place with no duplicate check in
the handler; however the name column is declared unique, so committing a
name already carried by a different row raises an uncaught IntegrityError
and the stored row keeps its old name. -/
def update_category (categoryId : Nat) (newName : String) (s : Store) :
    Except OpError Unit × Store :=
  match s.getCategory categoryId with
  | none => (Except.error OpError.notFound, s)
  | some _ =>
    if !(dataRequired newName) then (Except.error OpError.invalidInput, s)
    else if s.categories.any (fun c => c.name == newName && !(c.id == categoryId)) then
      (Except.error OpError.duplicateName, s)
    else
      (Except.ok (),
        { s with categories :=
            (s.categories.map
              (fun c => if c.id == categoryId then { c with name := newName } else c)) })

/-- route update_to_do: fetches the ToDos row (absent row cannot be
dereferenced: NotFound), validates the UpdateToDoForm (name DataRequired,
category SelectField over the current category names, due_date DataRequired
plus date_check), overwrites name, parent_category and due_date, then
re-stamps the category label of every subtasks row of this to-do with str of
the new parent category. -/
def update_to_do (toDoId : Nat) (name categoryName : String) (dueDate today : Nat)
    (s : Store) : Except OpError Unit × Store :=
  match s.getToDo toDoId with
  | none => (Except.error OpError.notFound, s)
  | some _ =>
    if !(dataRequired name) then (Except.error OpError.invalidInput, s)
    else if !(s.categories.any (fun c => c.name == categoryName)) then
      (Except.error OpError.invalidInput, s)
    else if !(date_check today dueDate) then (Except.error OpError.invalidDate, s)
    else
      let category := s.categoryByName categoryName
      let label := catLabel category
      (Except.ok (),
        { s with
          toDos :=
            (s.toDos.map (fun t =>
              if t.id == toDoId then
                { t with name := name, parentId := category.map (fun c => c.id),
                         dueDate := dueDate }
              else t)),
          subtasks :=
            (s.subtasks.map (fun sub =>
              if sub.toDoId == toDoId then { sub with category := label } else sub)) })

/-- route delete: fetches the ToDos row; when its subtasks collection is
non-empty, flashes a warning and renders without deleting anything;
otherwise deletes the row. -/
def delete (toDoId : Nat) (s : Store) : Except OpError Unit × Store :=
  match s.getToDo toDoId with
  | none => (Except.error OpError.notFound, s)
  | some t =>
    if !((s.subtasks.filter (fun sub => sub.toDoId == t.id)).isEmpty) then
      (Except.error OpError.hasSubtasks, s)
    else
      (Except.ok (), { s with toDos := s.toDos.filter (fun t2 => !(t2.id == toDoId)) })

/-- route delete_with_sub: fetches the ToDos row, deletes each of its
subtasks rows, then deletes the to-do itself. -/
def delete_with_sub (toDoId : Nat) (s : Store) : Except OpError Unit × Store :=
  match s.getToDo toDoId with
  | none => (Except.error OpError.notFound, s)
  | some _ =>
    (Except.ok (),
      { s with subtasks := s.subtasks.filter (fun sub => !(sub.toDoId == toDoId)),
               toDos := s.toDos.filter (fun t => !(t.id == toDoId)) })

/-- route mark_done: fetches the ToDos row, appends one GotDones row for the
to-do (category is str of its parent category, date is the current date),
then one GotDones row per subtask in relationship order (category is the
stored label of the subtask, date is the current date), and finally
redirects to delete_with_sub on the same id. -/
def mark_done (toDoId today : Nat) (s : Store) : Except OpError Unit × Store :=
  match s.getToDo toDoId with
  | none => (Except.error OpError.notFound, s)
  | some t =>
    let todoRec : GotDone := { id := s.nextDoneId, name := t.name,
                               category := catLabel (s.parentCategoryOf t), date := today }
    let subs := s.subtasksOf toDoId
    let subRecs := subs.mapIdx (fun i sub =>
      ({ id := s.nextDoneId + 1 + i, name := sub.name,
         category := sub.category, date := today } : GotDone))
    let s1 := { s with gotDones := s.gotDones ++ todoRec :: subRecs,
                       nextDoneId := s.nextDoneId + 1 + subs.length }
    delete_with_sub toDoId s1

/-- route clear_got_done: deletes every GotDones row. -/
def clear_got_done (s : Store) : Store :=
  { s with gotDones := [] }

/-- A store with no rows at all. -/
def emptyStore : Store :=
  { categories := [], toDos := [], subtasks := [], gotDones := [],
    nextCatId := 1, nextToDoId := 1, nextSubId := 1, nextDoneId := 1 }

/-- A store with one category, one to-do carrying two subtasks, and an empty
done log. -/
def exStore : Store :=
  { categories := [{ id := 1, name := "Work" }],
    toDos := [{ id := 1, name := "Report", parentId := some 1, dueDate := 10 }],
    subtasks := [{ id := 1, name := "Draft", dueDate := 7, toDoId := 1, category := "Work" },
                 { id := 2, name := "Review", dueDate := 9, toDoId := 1, category := "Work" }],
    gotDones := [],
    nextCatId := 2, nextToDoId := 2, nextSubId := 3, nextDoneId := 1 }

/-- A store with two categories named Work and Personal and nothing else. -/
def twoCatStore : Store :=
  { categories := [{ id := 1, name := "Work" }, { id := 2, name := "Personal" }],
    toDos := [], subtasks := [], gotDones := [],
    nextCatId := 3, nextToDoId := 1, nextSubId := 1, nextDoneId := 1 }

/-- C9: clear_got_done deletes every DoneRecord, is a no-op on an empty log,
and calling it twice in a row yields the same state as calling it once. -/
theorem clear_got_done_spec (s : Store) :
    (clear_got_done s).gotDones = [] ∧
    clear_got_done (clear_got_done s) = clear_got_done s ∧
    (s.gotDones = [] → clear_got_done s = s) := by
  refine ⟨rfl, rfl, fun h => ?_⟩
  cases s
  simp_all [clear_got_done]

/-- C9 witness: on the concrete empty done log of exStore, clearing is a
no-op. -/
theorem clear_got_done_spec_witness :
    clear_got_done exStore = exStore :=
  (clear_got_done_spec exStore).2.2 rfl

/-- C8 counterexample: with categories Work (id 1) and Personal (id 2),
renaming category 1 to Personal does not succeed; the commit hits the unique
constraint on the name column and the store is unchanged, so the name of
category 1 stays Work. -/
theorem update_category_duplicate_cex :
    update_category 1 "Personal" twoCatStore =
      (Except.error OpError.duplicateName, twoCatStore) := rfl

/-- C8 (amended): renameCategory on an existing Category overwrites its name
in place with no duplicate check in the handler, so it succeeds for every
non-empty newName not carried by a different Category; but when newName
equals another existing Category's name, the unique column constraint makes
the commit fail and the store is unchanged. -/
theorem update_category_spec (s : Store) (categoryId : Nat) (newName : String)
    (c : Category) (hc : s.getCategory categoryId = some c)
    (hname : dataRequired newName = true) :
    ((∀ c2 ∈ s.categories, c2.name = newName → c2.id = categoryId) →
       (update_category categoryId newName s).1 = Except.ok () ∧
       (∀ c2 ∈ (update_category categoryId newName s).2.categories,
          c2.id = categoryId → c2.name = newName) ∧
       (∃ c2 ∈ (update_category categoryId newName s).2.categories, c2.id = categoryId)) ∧
    ((∃ c2 ∈ s.categories, c2.name = newName ∧ c2.id ≠ categoryId) →
       update_category categoryId newName s = (Except.error OpError.duplicateName, s)) := by
  have hcm : c ∈ s.categories := List.mem_of_find?_eq_some hc
  have hcid : c.id = categoryId := by
    have := List.find?_some hc
    simpa using this
  constructor
  · intro H1
    have hany : (s.categories.any
        (fun c2 => c2.name == newName && !(c2.id == categoryId))) = false := by
      rw [List.any_eq_false]
      intro c2 hc2
      simp only [Bool.and_eq_true, beq_iff_eq, Bool.not_eq_eq_eq_not, Bool.not_true,
        not_and]
      intro hn
      simp [H1 c2 hc2 hn]
    refine ⟨?_, ?_, ?_⟩
    · simp [update_category, hc, hname, hany]
    · intro c2 hc2 hid
      simp only [update_category, hc, hname, Bool.not_true, Bool.false_eq_true,
        if_false, hany] at hc2
      obtain ⟨c0, hc0, rfl⟩ := List.mem_map.mp hc2
      by_cases h0 : (c0.id == categoryId) = true
      · simp [h0]
      · simp only [h0, if_false] at hid ⊢
        exact absurd (by simpa using hid) (by simpa using h0)
    · refine ⟨if c.id == categoryId then { c with name := newName } else c, ?_, ?_⟩
      · simp only [update_category, hc, hname, Bool.not_true, Bool.false_eq_true,
          if_false, hany]
        exact List.mem_map.mpr ⟨c, hcm, rfl⟩
      · simp [hcid]
  · rintro ⟨c2, hc2, hn, hne⟩
    have hany : (s.categories.any
        (fun c3 => c3.name == newName && !(c3.id == categoryId))) = true := by
      rw [List.any_eq_true]
      exact ⟨c2, hc2, by simp [hn, hne]⟩
    simp [update_category, hc, hname, hany]

/-- C8 amended witness: renaming category 1 of twoCatStore to the fresh name
Weekend succeeds, and renaming category 2 to the taken name Work fails with
the duplicate-name constraint violation, leaving the store unchanged. -/
theorem update_category_spec_witness :
    (update_category 1 "Weekend" twoCatStore).1 = Except.ok () ∧
    update_category 2 "Work" twoCatStore =
      (Except.error OpError.duplicateName, twoCatStore) := by
  refine ⟨((update_category_spec twoCatStore 1 "Weekend"
      { id := 1, name := "Work" } rfl (by decide)).1 (by decide)).1, ?_⟩
  exact (update_category_spec twoCatStore 2 "Work"
      { id := 2, name := "Personal" } rfl (by decide)).2
    ⟨{ id := 1, name := "Work" }, by decide, rfl, by decide⟩

/-- C3: createCategory fails with DuplicateName and leaves the store
unchanged when the exact name already exists; otherwise it inserts and
returns the new Category, after which a second call with the same name
fails with DuplicateName and the store holds exactly one Category of that
name. -/
theorem add_new_category_spec (s : Store) (name : String)
    (hname : dataRequired name = true) :
    ((∃ c ∈ s.categories, c.name = name) →
       add_new_category name s = (Except.error OpError.duplicateName, s)) ∧
    ((∀ c ∈ s.categories, c.name ≠ name) →
       ∃ c1, (add_new_category name s).1 = Except.ok c1 ∧ c1.name = name ∧
         (add_new_category name s).2.categories = s.categories ++ [c1] ∧
         add_new_category name (add_new_category name s).2 =
           (Except.error OpError.duplicateName, (add_new_category name s).2) ∧
         (((add_new_category name s).2.categories.filter
             (fun c => c.name == name)).length = 1)) := by
  constructor
  · rintro ⟨c, hcm, hcn⟩
    have hsome : (s.categoryByName name).isSome := by
      rw [Store.categoryByName, List.find?_isSome]
      exact ⟨c, hcm, by simp [hcn]⟩
    obtain ⟨c0, hc0⟩ := Option.isSome_iff_exists.mp hsome
    simp [add_new_category, hname, hc0]
  · intro H
    have hnone : s.categoryByName name = none := by
      rw [Store.categoryByName, List.find?_eq_none]
      intro c hcm
      simp [H c hcm]
    have heq : add_new_category name s =
        (Except.ok { id := s.nextCatId, name := name },
         { s with categories := s.categories ++ [{ id := s.nextCatId, name := name }],
                  nextCatId := s.nextCatId + 1 }) := by
      simp [add_new_category, hname, hnone]
    have hnilfind : s.categories.find? (fun c => c.name == name) = none := by
      rw [List.find?_eq_none]
      intro c hcm
      simp [H c hcm]
    refine ⟨{ id := s.nextCatId, name := name }, ?_, rfl, ?_, ?_, ?_⟩
    · rw [heq]
    · rw [heq]
    · rw [heq]
      have hfind : ({ s with
          categories := s.categories ++ [{ id := s.nextCatId, name := name }],
          nextCatId := s.nextCatId + 1 } : Store).categoryByName name =
          some { id := s.nextCatId, name := name } := by
        rw [Store.categoryByName]
        simp only [List.find?_append, hnilfind, Option.none_or]
        simp
      simp [add_new_category, hname, hfind]
    · rw [heq]
      have hnil : s.categories.filter (fun c => c.name == name) = [] := by
        rw [List.filter_eq_nil_iff]
        intro c hcm
        simp [H c hcm]
      simp only [List.filter_append, hnil]
      simp

/-- C3 witness: on the empty store, adding Personal succeeds; adding it again
fails with DuplicateName and exactly one category named Personal remains. -/
theorem add_new_category_spec_witness :
    add_new_category "Personal" (add_new_category "Personal" emptyStore).2 =
      (Except.error OpError.duplicateName, (add_new_category "Personal" emptyStore).2) ∧
    (((add_new_category "Personal" emptyStore).2.categories.filter
        (fun c => c.name == "Personal")).length = 1) := by
  obtain ⟨c1, h1, h2, h3, h4, h5⟩ :=
    (add_new_category_spec emptyStore "Personal" rfl).2 (by decide)
  exact ⟨h4, h5⟩

/-- C5: deleteToDo on a to-do that still has a subtask fails with
HasSubtasks and leaves the store unchanged, while delete_with_sub on the
same state succeeds and removes every subtask of the to-do and the to-do
itself. -/
theorem delete_spec (s : Store) (toDoId : Nat) (t : ToDo)
    (ht : s.getToDo toDoId = some t)
    (hsub : ∃ sub ∈ s.subtasks, sub.toDoId = toDoId) :
    delete toDoId s = (Except.error OpError.hasSubtasks, s) ∧
    (delete_with_sub toDoId s).1 = Except.ok () ∧
    (∀ sub ∈ (delete_with_sub toDoId s).2.subtasks, sub.toDoId ≠ toDoId) ∧
    (∀ t2 ∈ (delete_with_sub toDoId s).2.toDos, t2.id ≠ toDoId) := by
  have htid : t.id = toDoId := by
    have := List.find?_some ht
    simpa using this
  obtain ⟨sub0, hsm, hst⟩ := hsub
  have hne : (s.subtasks.filter (fun sub => sub.toDoId == t.id)).isEmpty = false := by
    rw [List.isEmpty_eq_false]
    intro hnil
    rw [List.filter_eq_nil_iff] at hnil
    exact hnil sub0 hsm (by simp [hst, htid])
  refine ⟨by simp [delete, ht, hne], by simp [delete_with_sub, ht], ?_, ?_⟩
  · intro sub hmem
    simp only [delete_with_sub, ht] at hmem
    have := (List.mem_filter.mp hmem).2
    simpa using this
  · intro t2 hmem
    simp only [delete_with_sub, ht] at hmem
    have := (List.mem_filter.mp hmem).2
    simpa using this

/-- C5 witness: in exStore, to-do 1 still has subtasks, so delete fails with
HasSubtasks and changes nothing, while delete_with_sub succeeds. -/
theorem delete_spec_witness :
    delete 1 exStore = (Except.error OpError.hasSubtasks, exStore) ∧
    (delete_with_sub 1 exStore).1 = Except.ok () := by
  have h := delete_spec exStore 1 { id := 1, name := "Report", parentId := some 1, dueDate := 10 }
    rfl ⟨{ id := 1, name := "Draft", dueDate := 7, toDoId := 1, category := "Work" },
      by decide, rfl⟩
  exact ⟨h.1, h.2.1⟩

theorem subLE_trans (a b c : Subtask) (h1 : subLE a b = true) (h2 : subLE b c = true) :
    subLE a c = true := by
  simp only [subLE, decide_eq_true_eq] at h1 h2 ⊢
  omega

theorem subLE_total (a b : Subtask) : (subLE a b || subLE b a) = true := by
  simp only [subLE, Bool.or_eq_true, decide_eq_true_eq]
  omega

theorem toDoLE_trans (a b c : ToDo) (h1 : toDoLE a b = true) (h2 : toDoLE b c = true) :
    toDoLE a c = true := by
  simp only [toDoLE, decide_eq_true_eq] at h1 h2 ⊢
  omega

theorem toDoLE_total (a b : ToDo) : (toDoLE a b || toDoLE b a) = true := by
  simp only [toDoLE, Bool.or_eq_true, decide_eq_true_eq]
  omega

theorem subtasksOf_sorted (s : Store) (i : Nat) :
    (s.subtasksOf i).Pairwise (fun a b => a.dueDate ≤ b.dueDate) := by
  have hp := List.sorted_mergeSort subLE_trans subLE_total
      (s.subtasks.filter (fun sub => sub.toDoId == i))
  exact hp.imp (fun h => by simpa [subLE] using h)

/-- C4: createSubtask is rejected whenever the entered due date is before the
current date or after the parent due date, and on any such rejection the
store is completely unchanged. -/
theorem add_new_subtask_reject (s : Store) (toDoId : Nat) (name : String)
    (dueDate today : Nat)
    (h : dueDate < today ∨ ∃ t, s.getToDo toDoId = some t ∧ t.dueDate < dueDate) :
    (∃ e, (add_new_subtask toDoId name dueDate today s).1 = Except.error e) ∧
    (add_new_subtask toDoId name dueDate today s).2 = s := by
  rcases (Bool.eq_false_or_eq_true (dataRequired name)).symm with hn | hn
  · exact ⟨⟨OpError.invalidInput, by simp [add_new_subtask, hn]⟩,
      by simp [add_new_subtask, hn]⟩
  · by_cases hd : dueDate < today
    · have hdc : date_check today dueDate = false := by simp [date_check, hd]
      exact ⟨⟨OpError.invalidDate, by simp [add_new_subtask, hn, hdc]⟩,
        by simp [add_new_subtask, hn, hdc]⟩
    · rcases h with h | ⟨t, ht, hlt⟩
      · exact absurd h hd
      · have hdc : date_check today dueDate = true := by simp [date_check, hd]
        exact ⟨⟨OpError.invalidDate, by simp [add_new_subtask, hn, hdc, ht, hlt]⟩,
          by simp [add_new_subtask, hn, hdc, ht, hlt]⟩

/-- C4 witness: with current date 5, a subtask dated 11, one day after the
parent due date 10, is rejected and exStore is unchanged. -/
theorem add_new_subtask_reject_witness :
    (∃ e, (add_new_subtask 1 "Late" 11 5 exStore).1 = Except.error e) ∧
    (add_new_subtask 1 "Late" 11 5 exStore).2 = exStore :=
  add_new_subtask_reject exStore 1 "Late" 11 5
    (Or.inr ⟨{ id := 1, name := "Report", parentId := some 1, dueDate := 10 },
      rfl, by decide⟩)

/-- A store whose only to-do is overdue: its due date 0 is before the current
date used in the counterexample. -/
def overdueStore : Store :=
  { categories := [{ id := 1, name := "Work" }],
    toDos := [{ id := 1, name := "Overdue", parentId := some 1, dueDate := 0 }],
    subtasks := [], gotDones := [],
    nextCatId := 2, nextToDoId := 2, nextSubId := 1, nextDoneId := 1 }

/-- C10 counterexample: with current date 1 and an existing parent to-do due
at 0, a subtask dated exactly at the current date is rejected by the
parent-date check, and a subtask dated exactly at the parent due date is
rejected by the past-date check; neither boundary subtask is inserted, so
the claim fails for this existing parent to-do. -/
theorem add_new_subtask_boundary_cex :
    (add_new_subtask 1 "Sub" 1 1 overdueStore).1 = Except.error OpError.invalidDate ∧
    (add_new_subtask 1 "Sub" 1 1 overdueStore).2 = overdueStore ∧
    (add_new_subtask 1 "Sub" 0 1 overdueStore).1 = Except.error OpError.invalidDate ∧
    (add_new_subtask 1 "Sub" 0 1 overdueStore).2 = overdueStore :=
  ⟨rfl, rfl, rfl, rfl⟩

/-- C10 (amended): both date boundaries of createSubtask are inclusive on the
accepting side — a due date equal to the current date passes the strict
past-date check and a due date equal to the parent due date passes the
strict parent-date check — so for every existing parent to-do whose due date
is not earlier than the current date, a subtask dated at either boundary is
accepted and inserted. -/
theorem add_new_subtask_boundary (s : Store) (toDoId : Nat) (name : String)
    (today : Nat) (t : ToDo) (ht : s.getToDo toDoId = some t)
    (hname : dataRequired name = true) (hpar : today ≤ t.dueDate) :
    ((add_new_subtask toDoId name today today s).1 =
       Except.ok { id := s.nextSubId, name := name, dueDate := today,
                   toDoId := t.id, category := catLabel (s.parentCategoryOf t) } ∧
     (add_new_subtask toDoId name today today s).2.subtasks =
       s.subtasks ++ [{ id := s.nextSubId, name := name, dueDate := today,
                        toDoId := t.id, category := catLabel (s.parentCategoryOf t) }]) ∧
    ((add_new_subtask toDoId name t.dueDate today s).1 =
       Except.ok { id := s.nextSubId, name := name, dueDate := t.dueDate,
                   toDoId := t.id, category := catLabel (s.parentCategoryOf t) } ∧
     (add_new_subtask toDoId name t.dueDate today s).2.subtasks =
       s.subtasks ++ [{ id := s.nextSubId, name := name, dueDate := t.dueDate,
                        toDoId := t.id, category := catLabel (s.parentCategoryOf t) }]) := by
  have h1 : date_check today today = true := by simp [date_check]
  have h2 : date_check today t.dueDate = true := by
    simp [date_check, Nat.not_lt.mpr hpar]
  have h3 : ¬ (t.dueDate < today) := Nat.not_lt.mpr hpar
  constructor
  · constructor <;> simp [add_new_subtask, hname, h1, ht, h3]
  · constructor <;> simp [add_new_subtask, hname, h2, ht]

/-- C10 amended witness: in exStore with current date 7 and parent due date
10, a subtask dated 7 and a subtask dated 10 are both accepted. -/
theorem add_new_subtask_boundary_witness :
    (add_new_subtask 1 "Final" 7 7 exStore).1 =
      Except.ok { id := 3, name := "Final", dueDate := 7, toDoId := 1,
                  category := "Work" } ∧
    (add_new_subtask 1 "Final" 10 7 exStore).1 =
      Except.ok { id := 3, name := "Final", dueDate := 10, toDoId := 1,
                  category := "Work" } := by
  have h := add_new_subtask_boundary exStore 1 "Final" 7
    { id := 1, name := "Report", parentId := some 1, dueDate := 10 } rfl
    (by decide) (by decide)
  exact ⟨h.1.1, h.2.1⟩

/-- C2: when createSubtask succeeds, the new row keeps exactly the supplied
due date, every previously stored subtask row is untouched, the new row
belongs to the parent's subtask sequence, and that sequence is sorted by due
date ascending. -/
theorem add_new_subtask_sorted (s : Store) (toDoId : Nat) (name : String)
    (dueDate today : Nat) (sub : Subtask)
    (h : (add_new_subtask toDoId name dueDate today s).1 = Except.ok sub) :
    sub.dueDate = dueDate ∧
    (add_new_subtask toDoId name dueDate today s).2.subtasks = s.subtasks ++ [sub] ∧
    sub ∈ (add_new_subtask toDoId name dueDate today s).2.subtasksOf toDoId ∧
    ((add_new_subtask toDoId name dueDate today s).2.subtasksOf toDoId).Pairwise
      (fun a b => a.dueDate ≤ b.dueDate) := by
  rcases (Bool.eq_false_or_eq_true (dataRequired name)).symm with hn | hn
  · simp [add_new_subtask, hn] at h
  rcases (Bool.eq_false_or_eq_true (date_check today dueDate)).symm with hd | hd
  · simp [add_new_subtask, hn, hd] at h
  cases ht : s.getToDo toDoId with
  | none => simp [add_new_subtask, hn, hd, ht] at h
  | some t =>
    by_cases hlt : t.dueDate < dueDate
    · simp [add_new_subtask, hn, hd, ht, hlt] at h
    · have htid : t.id = toDoId := by
        have := List.find?_some ht
        simpa using this
      have hsub : sub = { id := s.nextSubId, name := name, dueDate := dueDate,
                          toDoId := t.id,
                          category := catLabel (s.parentCategoryOf t) } := by
        simp [add_new_subtask, hn, hd, ht, hlt] at h
        exact h.symm
      have hst : (add_new_subtask toDoId name dueDate today s).2.subtasks =
          s.subtasks ++ [sub] := by
        simp [add_new_subtask, hn, hd, ht, hlt, hsub]
      refine ⟨by rw [hsub], hst, ?_, subtasksOf_sorted _ _⟩
      rw [Store.subtasksOf, List.mem_mergeSort, List.mem_filter, hst]
      exact ⟨List.mem_append_right _ (List.mem_singleton.mpr rfl),
        by simp [hsub, htid]⟩

/-- C2 witness: adding a subtask dated 8 to exStore at current date 5
succeeds, keeps the supplied date, leaves the old rows in place, and the
sequence of to-do 1 is sorted by due date. -/
theorem add_new_subtask_sorted_witness :
    ({ id := 3, name := "Middle", dueDate := 8, toDoId := 1,
       category := "Work" } : Subtask).dueDate = 8 ∧
    (add_new_subtask 1 "Middle" 8 5 exStore).2.subtasks =
      exStore.subtasks ++ [{ id := 3, name := "Middle", dueDate := 8, toDoId := 1,
                             category := "Work" }] := by
  have h := add_new_subtask_sorted exStore 1 "Middle" 8 5
    { id := 3, name := "Middle", dueDate := 8, toDoId := 1, category := "Work" } rfl
  exact ⟨h.1, h.2.1⟩

/-- C6: the dashboard lists a permutation of the stored to-dos in
non-decreasing due-date order, and two to-dos with equal due dates appear in
their insertion order (the sort is stable). -/
theorem dashboard_spec (s : Store) :
    (dashboard s).Pairwise (fun a b => a.dueDate ≤ b.dueDate) ∧
    (dashboard s).Perm s.toDos ∧
    (∀ a b : ToDo, a.dueDate = b.dueDate → List.Sublist [a, b] s.toDos →
       List.Sublist [a, b] (dashboard s)) := by
  refine ⟨?_, List.mergeSort_perm s.toDos toDoLE, ?_⟩
  · exact (List.sorted_mergeSort toDoLE_trans toDoLE_total s.toDos).imp
      (fun h => by simpa [toDoLE] using h)
  · intro a b hab hsl
    exact List.pair_sublist_mergeSort toDoLE_trans toDoLE_total
      (by simp [toDoLE, hab]) hsl

/-- A store with two to-dos sharing the due date 5, inserted as A then B. -/
def tieStore : Store :=
  { categories := [],
    toDos := [{ id := 1, name := "A", parentId := none, dueDate := 5 },
              { id := 2, name := "B", parentId := none, dueDate := 5 }],
    subtasks := [], gotDones := [],
    nextCatId := 1, nextToDoId := 3, nextSubId := 1, nextDoneId := 1 }

/-- C6 witness: the two equal-dated to-dos of tieStore keep their insertion
order on the dashboard. -/
theorem dashboard_spec_witness :
    List.Sublist [{ id := 1, name := "A", parentId := none, dueDate := 5 },
                  { id := 2, name := "B", parentId := none, dueDate := 5 }]
      (dashboard tieStore) :=
  (dashboard_spec tieStore).2.2 _ _ rfl (List.Sublist.refl _)

/-- C7: when updateToDo succeeds, the to-do carries the supplied name, the
selected category and the supplied due date, and the denormalized category
label of every subtask of this to-do is overwritten to the (possibly
changed) category name. -/
theorem update_to_do_spec (s : Store) (toDoId : Nat) (name categoryName : String)
    (dueDate today : Nat)
    (h : (update_to_do toDoId name categoryName dueDate today s).1 = Except.ok ()) :
    ∃ c, s.categoryByName categoryName = some c ∧ c.name = categoryName ∧
      (∀ t2 ∈ (update_to_do toDoId name categoryName dueDate today s).2.toDos,
         t2.id = toDoId →
         t2.name = name ∧ t2.parentId = some c.id ∧ t2.dueDate = dueDate) ∧
      (∀ sub ∈ (update_to_do toDoId name categoryName dueDate today s).2.subtasks,
         sub.toDoId = toDoId → sub.category = categoryName) ∧
      (∃ t2 ∈ (update_to_do toDoId name categoryName dueDate today s).2.toDos,
         t2.id = toDoId) := by
  cases ht : s.getToDo toDoId with
  | none => simp [update_to_do, ht] at h
  | some t =>
    rcases (Bool.eq_false_or_eq_true (dataRequired name)).symm with hn | hn
    · simp [update_to_do, ht, hn] at h
    rcases (Bool.eq_false_or_eq_true
        (s.categories.any (fun c => c.name == categoryName))).symm with hany | hany
    · simp [update_to_do, ht, hn, hany] at h
    rcases (Bool.eq_false_or_eq_true (date_check today dueDate)).symm with hd | hd
    · simp [update_to_do, ht, hn, hany, hd] at h
    obtain ⟨c0, hmem0, hc0⟩ := List.any_eq_true.mp hany
    have hsome : (s.categoryByName categoryName).isSome := by
      rw [Store.categoryByName, List.find?_isSome]
      exact ⟨c0, hmem0, hc0⟩
    obtain ⟨c, hc⟩ := Option.isSome_iff_exists.mp hsome
    have hcn : c.name = categoryName := by
      have hc2 := hc
      rw [Store.categoryByName] at hc2
      have := List.find?_some hc2
      simpa using this
    have heq : update_to_do toDoId name categoryName dueDate today s =
        (Except.ok (),
         { s with
           toDos :=
             (s.toDos.map (fun t2 =>
               if t2.id == toDoId then
                 { t2 with name := name, parentId := some c.id, dueDate := dueDate }
               else t2)),
           subtasks :=
             (s.subtasks.map (fun sub =>
               if sub.toDoId == toDoId then { sub with category := c.name }
               else sub)) }) := by
      simp [update_to_do, ht, hn, hany, hd, hc, catLabel]
    have htm : t ∈ s.toDos := List.mem_of_find?_eq_some ht
    have htid : t.id = toDoId := by
      have := List.find?_some ht
      simpa using this
    refine ⟨c, hc, hcn, ?_, ?_, ?_⟩
    · intro t2 hmem2 hid
      rw [heq] at hmem2
      obtain ⟨t0, ht0, rfl⟩ := List.mem_map.mp hmem2
      by_cases h0 : (t0.id == toDoId) = true
      · simp [h0]
      · simp only [h0, Bool.false_eq_true, if_false] at hid
        exact absurd (by simpa using hid) (by simpa using h0)
    · intro sub hmem2 hid
      rw [heq] at hmem2
      obtain ⟨sub0, hsub0, rfl⟩ := List.mem_map.mp hmem2
      by_cases h0 : (sub0.toDoId == toDoId) = true
      · simp [h0, hcn]
      · simp only [h0, Bool.false_eq_true, if_false] at hid
        exact absurd (by simpa using hid) (by simpa using h0)
    · rw [heq]
      exact ⟨_, List.mem_map.mpr ⟨t, htm, rfl⟩, by simp [htid]⟩

/-- C7 witness: updating to-do 1 of exStore keeps a row with id 1 in the
table, now carrying the supplied values. -/
theorem update_to_do_spec_witness :
    ∃ t2 ∈ (update_to_do 1 "Planning" "Work" 12 5 exStore).2.toDos, t2.id = 1 := by
  obtain ⟨c, hc, hcn, hto, hsub, hex⟩ :=
    update_to_do_spec exStore 1 "Planning" "Work" 12 5 rfl
  exact hex

/-- C1: completing a to-do with n subtasks appends exactly n + 1 new done
records — first the record of the to-do, carrying its category name and the
current date, then one record per subtask carrying the stored denormalized
label and the current date — then deletes all n subtasks and the to-do, so
the to-do no longer appears on the dashboard. -/
theorem mark_done_spec (s : Store) (toDoId today : Nat) (t : ToDo)
    (ht : s.getToDo toDoId = some t) :
    (mark_done toDoId today s).1 = Except.ok () ∧
    (mark_done toDoId today s).2.gotDones =
      s.gotDones ++
        { id := s.nextDoneId, name := t.name,
          category := catLabel (s.parentCategoryOf t), date := today } ::
        ((s.subtasksOf toDoId).mapIdx (fun i sub =>
          { id := s.nextDoneId + 1 + i, name := sub.name,
            category := sub.category, date := today })) ∧
    (mark_done toDoId today s).2.gotDones.length =
      s.gotDones.length + 1 + (s.subtasksOf toDoId).length ∧
    (mark_done toDoId today s).2.subtasksOf toDoId = [] ∧
    (∀ t2 ∈ dashboard (mark_done toDoId today s).2, t2.id ≠ toDoId) := by
  have ht2 : s.toDos.find? (fun t2 => t2.id == toDoId) = some t := ht
  have heq : mark_done toDoId today s =
      (Except.ok (),
       { categories := s.categories,
         toDos := s.toDos.filter (fun t2 => !(t2.id == toDoId)),
         subtasks := s.subtasks.filter (fun sub => !(sub.toDoId == toDoId)),
         gotDones := s.gotDones ++
           { id := s.nextDoneId, name := t.name,
             category := catLabel (s.parentCategoryOf t), date := today } ::
           ((s.subtasksOf toDoId).mapIdx (fun i sub =>
             { id := s.nextDoneId + 1 + i, name := sub.name,
               category := sub.category, date := today })),
         nextCatId := s.nextCatId, nextToDoId := s.nextToDoId,
         nextSubId := s.nextSubId,
         nextDoneId := s.nextDoneId + 1 + (s.subtasksOf toDoId).length }) := by
    simp [mark_done, delete_with_sub, Store.getToDo, ht2]
  refine ⟨by rw [heq], by rw [heq], ?_, ?_, ?_⟩
  · rw [heq]
    simp only [List.length_append, List.length_cons, List.length_mapIdx]
    omega
  · rw [heq]
    simp [Store.subtasksOf, List.filter_filter]
  · intro t2 hmem
    rw [heq] at hmem
    simp only [dashboard, List.mem_mergeSort, List.mem_filter] at hmem
    simpa using hmem.2

/-- C1 witness: completing to-do 1 of exStore, which has two subtasks, at
current date 12 succeeds and grows the empty done log to three records. -/
theorem mark_done_spec_witness :
    (mark_done 1 12 exStore).1 = Except.ok () ∧
    (mark_done 1 12 exStore).2.gotDones.length =
      exStore.gotDones.length + 1 + (exStore.subtasksOf 1).length := by
  have h := mark_done_spec exStore 1 12
    { id := 1, name := "Report", parentId := some 1, dueDate := 10 } rfl
  exact ⟨h.1, h.2.2.1⟩

end Donosaur
